import Mathlib

/-
Shallow embedding of the rich-text rendering engine found in
src/frontend/src/components/rich_content.rs.

Strings are modelled as `List Char` (Unicode scalar sequences, matching
Rust `str::chars`).  The outer line-dispatch loop of
`render_markdown_to_html` and the inline scanner `process_inline` carry
explicit fuel: a `none` result means the fuel ran out, so a statement of
the form `one more unit of fuel makes no progress` (and hence
`for every fuel the result is none`) expresses non-termination of the
corresponding Rust loop.  All other recursion is structural, mirroring
the source's forward-only scanning.
-/

set_option maxRecDepth 100000

namespace Nexa

/-- The ASCII backtick character, extracted from a string literal. -/
def backtickChar : Char := "`".data.getD 0 ' '

/-- The ASCII apostrophe character (code point 39). -/
def aposChar : Char := Char.ofNat 39

/-- Unicode White_Space, the set used by Rust `char::is_whitespace`. -/
def rsWhitespace (c : Char) : Bool :=
  c = ' ' || c = '\t' || c = '\n' || c = '\x0b' || c = '\x0c' || c = '\r' ||
  c = '\u0085' || c = '\u00a0' || c = '\u1680' ||
  ('\u2000' ≤ c && c ≤ '\u200a') ||
  c = '\u2028' || c = '\u2029' || c = '\u202f' || c = '\u205f' || c = '\u3000'

/-- Rust `str::trim_start`. -/
def trimStart (l : List Char) : List Char := l.dropWhile rsWhitespace

/-- Rust `str::trim_end`. -/
def trimEnd (l : List Char) : List Char := (l.reverse.dropWhile rsWhitespace).reverse

/-- Rust `str::trim`. -/
def trim (l : List Char) : List Char := trimEnd (trimStart l)

/-- Rust `str::contains(&str)`: substring occurrence test. -/
def isSubstr (pat : List Char) : List Char → Bool
  | [] => pat.isPrefixOf ([] : List Char)
  | c :: rest => pat.isPrefixOf (c :: rest) || isSubstr pat rest

/-- Split a character list at every occurrence of the delimiter
(Rust `str::split(char)`). -/
def splitOnChar (d : Char) : List Char → List (List Char)
  | [] => [[]]
  | c :: rest =>
    match splitOnChar d rest with
    | [] => [[c]]
    | h :: t => if c = d then [] :: h :: t else (c :: h) :: t

/-- Rust `str::strip_prefix`. -/
def stripPre (p l : List Char) : Option (List Char) :=
  if p.isPrefixOf l then some (l.drop p.length) else none

/-- Rust `str::strip_suffix`. -/
def stripSuf (p l : List Char) : Option (List Char) :=
  if p.isSuffixOf l then some (l.take (l.length - p.length)) else none

/-- Rust `str::trim_matches(char)`: removes all leading and trailing
occurrences of the character. -/
def trimMatchesChar (d : Char) (l : List Char) : List Char :=
  ((l.dropWhile (fun c => c = d)).reverse.dropWhile (fun c => c = d)).reverse

/-- Fuel-indexed worker for `trimStartMatchesStr`; the fuel
`l.length` always suffices since each round removes at least one
character. -/
def trimStartMatchesStrAux (p : List Char) : Nat → List Char → List Char
  | 0, l => l
  | Nat.succ n, l =>
    if !p.isEmpty && p.isPrefixOf l then trimStartMatchesStrAux p n (l.drop p.length) else l

/-- Rust `str::trim_start_matches(&str)`: repeatedly strips the prefix. -/
def trimStartMatchesStr (p l : List Char) : List Char :=
  trimStartMatchesStrAux p l.length l

/-- Rust `str::trim_end_matches(&str)`: repeatedly strips the suffix. -/
def trimEndMatchesStr (p l : List Char) : List Char :=
  (trimStartMatchesStr p.reverse l.reverse).reverse

/-- The slice `chars[a..b]` of a character vector. -/
def sliceCs (cs : List Char) (a b : Nat) : List Char := (cs.take b).drop a

/-- Concatenate a list of character lists. -/
def catLists (ls : List (List Char)) : List Char := ls.foldl (fun a b => a ++ b) []

/-- Join lines with a newline before every line except the first
(the `first_line` flag in the fenced-code collector). -/
def joinNl : List (List Char) → List Char
  | [] => []
  | h :: t => t.foldl (fun acc l => acc ++ '\n' :: l) h

/-- The LaTeX-block accumulator: a newline is pushed only when the
accumulator is non-empty (`if !latex.is_empty() { latex.push('\n') }`). -/
def joinLatex (ls : List (List Char)) : List Char :=
  ls.foldl (fun acc l => if acc.isEmpty then l else acc ++ '\n' :: l) []

/-- Boolean test on an optional value. -/
def optHas {α : Type} (p : α → Bool) : Option α → Bool
  | none => false
  | some a => p a

/-- Worker for `find_closing`: first index holding the delimiter. -/
def findFromAux (d : Char) : List Char → Nat → Option Nat
  | [], _ => none
  | c :: rest, j => if c = d then some j else findFromAux d rest (j + 1)

/-- `find_closing` from rich_content.rs: index of the next occurrence of
`delim` at or after `start`. -/
def find_closing (cs : List Char) (start : Nat) (d : Char) : Option Nat :=
  findFromAux d (cs.drop start) start

/-- Worker scanning two-character windows. -/
def findTwoAux (a b : Char) : List Char → Nat → Option Nat
  | c1 :: c2 :: rest, j =>
    if c1 = a && c2 = b then some j else findTwoAux a b (c2 :: rest) (j + 1)
  | _, _ => none

/-- First index `j ≥ start` with `cs[j] = a` and `cs[j+1] = b`. -/
def findTwoFrom (cs : List Char) (start : Nat) (a b : Char) : Option Nat :=
  findTwoAux a b (cs.drop start) start

/-- `find_double_closing` from rich_content.rs. -/
def find_double_closing (cs : List Char) (start : Nat) (d : Char) : Option Nat :=
  findTwoFrom cs start d d

/-- Worker scanning three-character windows. -/
def findThreeAux (d : Char) : List Char → Nat → Option Nat
  | c1 :: c2 :: c3 :: rest, j =>
    if c1 = d && c2 = d && c3 = d then some j else findThreeAux d (c2 :: c3 :: rest) (j + 1)
  | _, _ => none

/-- `find_triple_closing` from rich_content.rs. -/
def find_triple_closing (cs : List Char) (start : Nat) (d : Char) : Option Nat :=
  findThreeAux d (cs.drop start) start

/-- Rust `str::replace(char, &str)`: every occurrence of `c` becomes `r`. -/
def replaceChar (l : List Char) (c : Char) (r : List Char) : List Char :=
  (l.map (fun x => if x = c then r else [x])).foldl (fun a b => a ++ b) []

/-- `escape_html` from rich_content.rs: sequential replacement of
the four markup-significant characters. -/
def escape_html (s : List Char) : List Char :=
  replaceChar (replaceChar (replaceChar (replaceChar s '&' "&amp;".data)
    '<' "&lt;".data) '>' "&gt;".data) '"' "&quot;".data

/-- `escape_html_attr` from rich_content.rs: `escape_html` plus
single-quote escaping. -/
def escape_html_attr (s : List Char) : List Char :=
  replaceChar (escape_html s) aposChar "&#39;".data

/-- `escape_html_char` from rich_content.rs. -/
def escape_html_char (c : Char) : List Char :=
  if c = '&' then "&amp;".data
  else if c = '<' then "&lt;".data
  else if c = '>' then "&gt;".data
  else if c = '"' then "&quot;".data
  else [c]

/-- `parse_link_or_image` from rich_content.rs: `[text](url)` matching
with plain nearest-delimiter scans. -/
def parse_link_or_image (cs : List Char) (start : Nat) :
    Option (List Char × List Char × Nat) :=
  if cs.getD start ' ' ≠ '[' then none
  else
    match find_closing cs (start + 1) ']' with
    | none => none
    | some cb =>
      if cb + 1 ≥ cs.length then none
      else if cs.getD (cb + 1) ' ' ≠ '(' then none
      else
        match find_closing cs (cb + 2) ')' with
        | none => none
        | some cp => some (sliceCs cs (start + 1) cb, sliceCs cs (cb + 2) cp, cp + 1)

/-- The inline scanner of `process_inline`, one branch per span rule in
source order; `i` is the cursor, recursion on nested spans restarts the
scanner on the inner slice. -/
def goInline : Nat → List Char → Nat → Option (List Char)
  | 0, _, _ => none
  | Nat.succ fuel, cs, i =>
    if i < cs.length then
      let c := cs.getD i ' '
      -- HTML <br> passthrough
      if i + 3 < cs.length ∧ c = '<' ∧ cs.getD (i + 1) ' ' = 'b' ∧
          cs.getD (i + 2) ' ' = 'r' ∧ cs.getD (i + 3) ' ' = '>' then
        (fun r => "<br>".data ++ r) <$> goInline fuel cs (i + 4)
      -- inline code
      else if c = backtickChar ∧ (find_closing cs (i + 1) backtickChar).isSome then
        let e := (find_closing cs (i + 1) backtickChar).getD 0
        (fun r => "<code>".data ++ escape_html (sliceCs cs (i + 1) e) ++ "</code>".data ++ r) <$>
          goInline fuel cs (e + 1)
      -- inline LaTeX \( ... \)
      else if c = '\\' ∧ i + 1 < cs.length ∧ cs.getD (i + 1) ' ' = '(' ∧
          (findTwoFrom cs (i + 2) '\\' ')').isSome then
        let e := (findTwoFrom cs (i + 2) '\\' ')').getD 0
        let latex := sliceCs cs (i + 2) e
        (fun r => "<span class=\"katex-inline\" data-latex=\"".data ++ escape_html_attr latex ++
            "\">".data ++ escape_html latex ++ "</span>".data ++ r) <$>
          goInline fuel cs (e + 2)
      -- inline LaTeX $ ... $ (not $$)
      else if c = '$' ∧ i + 1 < cs.length ∧ cs.getD (i + 1) ' ' ≠ '$' ∧
          optHas (fun e => decide (i + 1 < e)) (find_closing cs (i + 1) '$') then
        let e := (find_closing cs (i + 1) '$').getD 0
        let latex := sliceCs cs (i + 1) e
        (fun r => "<span class=\"katex-inline\" data-latex=\"".data ++ escape_html_attr latex ++
            "\">".data ++ escape_html latex ++ "</span>".data ++ r) <$>
          goInline fuel cs (e + 1)
      -- bold + italic *** ... ***
      else if i + 2 < cs.length ∧ c = '*' ∧ cs.getD (i + 1) ' ' = '*' ∧
          cs.getD (i + 2) ' ' = '*' ∧ (find_triple_closing cs (i + 3) '*').isSome then
        let e := (find_triple_closing cs (i + 3) '*').getD 0
        (goInline fuel (sliceCs cs (i + 3) e) 0).bind (fun inner =>
          (fun r => "<strong><em>".data ++ inner ++ "</em></strong>".data ++ r) <$>
            goInline fuel cs (e + 3))
      -- bold ** ... **
      else if i + 1 < cs.length ∧ c = '*' ∧ cs.getD (i + 1) ' ' = '*' ∧
          (find_double_closing cs (i + 2) '*').isSome then
        let e := (find_double_closing cs (i + 2) '*').getD 0
        (goInline fuel (sliceCs cs (i + 2) e) 0).bind (fun inner =>
          (fun r => "<strong>".data ++ inner ++ "</strong>".data ++ r) <$>
            goInline fuel cs (e + 2))
      -- bold __ ... __
      else if i + 1 < cs.length ∧ c = '_' ∧ cs.getD (i + 1) ' ' = '_' ∧
          (find_double_closing cs (i + 2) '_').isSome then
        let e := (find_double_closing cs (i + 2) '_').getD 0
        (goInline fuel (sliceCs cs (i + 2) e) 0).bind (fun inner =>
          (fun r => "<strong>".data ++ inner ++ "</strong>".data ++ r) <$>
            goInline fuel cs (e + 2))
      -- italic * ... *
      else if c = '*' ∧ i + 1 < cs.length ∧ cs.getD (i + 1) ' ' ≠ '*' ∧
          cs.getD (i + 1) ' ' ≠ ' ' ∧
          optHas (fun e => decide (i + 1 < e)) (find_closing cs (i + 1) '*') then
        let e := (find_closing cs (i + 1) '*').getD 0
        (goInline fuel (sliceCs cs (i + 1) e) 0).bind (fun inner =>
          (fun r => "<em>".data ++ inner ++ "</em>".data ++ r) <$>
            goInline fuel cs (e + 1))
      -- italic _ ... _
      else if c = '_' ∧ i + 1 < cs.length ∧ cs.getD (i + 1) ' ' ≠ '_' ∧
          cs.getD (i + 1) ' ' ≠ ' ' ∧
          optHas (fun e => decide (i + 1 < e)) (find_closing cs (i + 1) '_') then
        let e := (find_closing cs (i + 1) '_').getD 0
        (goInline fuel (sliceCs cs (i + 1) e) 0).bind (fun inner =>
          (fun r => "<em>".data ++ inner ++ "</em>".data ++ r) <$>
            goInline fuel cs (e + 1))
      -- image ![alt](url)
      else if c = '!' ∧ i + 1 < cs.length ∧ cs.getD (i + 1) ' ' = '[' ∧
          (parse_link_or_image cs (i + 1)).isSome then
        let p := (parse_link_or_image cs (i + 1)).getD ([], [], 0)
        (fun r => "<img src=\"".data ++ escape_html_attr p.2.1 ++ "\" alt=\"".data ++
            escape_html p.1 ++ "\" class=\"chat-image\" loading=\"lazy\">".data ++ r) <$>
          goInline fuel cs p.2.2
      -- link [text](url)
      else if c = '[' ∧ (parse_link_or_image cs i).isSome then
        let p := (parse_link_or_image cs i).getD ([], [], 0)
        (goInline fuel p.1 0).bind (fun inner =>
          (fun r => "<a href=\"".data ++ escape_html_attr p.2.1 ++
              "\" target=\"_blank\" rel=\"noopener\">".data ++ inner ++ "</a>".data ++ r) <$>
            goInline fuel cs p.2.2)
      -- strikethrough ~~ ... ~~
      else if i + 1 < cs.length ∧ c = '~' ∧ cs.getD (i + 1) ' ' = '~' ∧
          (find_double_closing cs (i + 2) '~').isSome then
        let e := (find_double_closing cs (i + 2) '~').getD 0
        (goInline fuel (sliceCs cs (i + 2) e) 0).bind (fun inner =>
          (fun r => "<del>".data ++ inner ++ "</del>".data ++ r) <$>
            goInline fuel cs (e + 2))
      -- superscript ^ ... ^
      else if c = '^' ∧ i + 1 < cs.length ∧ cs.getD (i + 1) ' ' ≠ ' ' ∧
          optHas (fun e => decide (i + 1 < e)) (find_closing cs (i + 1) '^') then
        let e := (find_closing cs (i + 1) '^').getD 0
        (fun r => "<sup>".data ++ escape_html (sliceCs cs (i + 1) e) ++ "</sup>".data ++ r) <$>
          goInline fuel cs (e + 1)
      -- normal character
      else
        (fun r => escape_html_char c ++ r) <$> goInline fuel cs (i + 1)
    else
      some []

/-- `process_inline` from rich_content.rs (fuel-indexed). -/
def process_inline (fuel : Nat) (cs : List Char) : Option (List Char) :=
  goInline fuel cs 0

/-- `is_task_list_item` from rich_content.rs. -/
def is_task_list_item (l : List Char) : Bool :=
  let t := trimStart l
  "- [ ] ".data.isPrefixOf t || "- [x] ".data.isPrefixOf t || "- [X] ".data.isPrefixOf t ||
  "* [ ] ".data.isPrefixOf t || "* [x] ".data.isPrefixOf t || "* [X] ".data.isPrefixOf t

/-- `parse_task_item` from rich_content.rs. -/
def parse_task_item (t : List Char) : Bool × List Char :=
  if "- [x] ".data.isPrefixOf t || "- [X] ".data.isPrefixOf t ||
      "* [x] ".data.isPrefixOf t || "* [X] ".data.isPrefixOf t then
    (true, t.drop 6)
  else if "- [ ] ".data.isPrefixOf t || "* [ ] ".data.isPrefixOf t then
    (false, t.drop 6)
  else
    (false, t)

/-- Index of the first occurrence of `pat` as a contiguous sublist
(Rust `str::find(&str)`). -/
def findSubIdx (pat : List Char) : List Char → Option Nat
  | [] => if pat.isPrefixOf ([] : List Char) then some 0 else none
  | c :: rest =>
    if pat.isPrefixOf (c :: rest) then some 0
    else (findSubIdx pat rest).map (fun n => n + 1)

/-- `parse_ordered_list_item` from rich_content.rs: a 1-3 digit run,
a literal ". ", and the remainder. -/
def parse_ordered_list_item (l : List Char) : Option (List Char) :=
  let t := trimStart l
  match findSubIdx ". ".data t with
  | none => none
  | some dp =>
    if 0 < dp ∧ dp ≤ 3 ∧ (t.take dp).all (fun c => c.isDigit) then
      some (t.drop (dp + 2))
    else
      none

/-- `is_list_item` from rich_content.rs. -/
def is_list_item (l : List Char) : Bool :=
  let t := trimStart l
  "- ".data.isPrefixOf t || "* ".data.isPrefixOf t || "+ ".data.isPrefixOf t ||
  is_task_list_item l || (parse_ordered_list_item l).isSome

/-- `is_header_line`: the header predicate inside `parse_header`
(the count of leading '#', the bound check and the space check),
separated from the inline rendering so that running out of inline fuel
is distinguishable from "not a header". -/
def is_header_line (l : List Char) : Option (Nat × List Char) :=
  let trimmed := trimStart l
  let level := (trimmed.takeWhile (fun c => c = '#')).length
  if 1 ≤ level ∧ level ≤ 6 ∧ level < trimmed.length ∧ trimmed.getD level ' ' = ' ' then
    some (level, trimmed.drop (level + 1))
  else
    none

/-- `parse_header` from rich_content.rs.  The outer `Option` is fuel
exhaustion of the inline processor; the inner `Option` is the source's
return value (`none` = not a header). -/
def parse_header (fuel : Nat) (l : List Char) : Option (Option (List Char)) :=
  match is_header_line l with
  | none => some none
  | some lc =>
    (process_inline fuel lc.2).map (fun ih =>
      some ("<h".data ++ (Nat.repr lc.1).data ++ ">".data ++ ih ++
        "</h".data ++ (Nat.repr lc.1).data ++ ">".data))

/-- `parse_table_row` from rich_content.rs. -/
def parse_table_row (l : List Char) : List (List Char) :=
  (splitOnChar '|' (trimMatchesChar '|' (trim l))).map trim

/-- Monadic map over `Option` (explicit structural recursion). -/
def mapOpt {α β : Type} (f : α → Option β) : List α → Option (List β)
  | [] => some []
  | a :: t => (f a).bind (fun b => (mapOpt f t).map (fun bs => b :: bs))

/-- Render one table row's cells with the given open/close tags. -/
def rowCellsHtml (fuel : Nat) (openT closeT : List Char) (cells : List (List Char)) :
    Option (List Char) :=
  (mapOpt (fun c => (process_inline fuel c).map (fun ih => openT ++ ih ++ closeT)) cells).map
    catLists

/-- The body-row predicate of `parse_table`'s data-row loop:
`lines[i].contains('|') && lines[i].trim().starts_with('|')`. -/
def tableBodyPred (l : List Char) : Bool :=
  l.contains '|' && "|".data.isPrefixOf (trim l)

/-- The separator-row step of `parse_table`: the line immediately after
the header is dropped if and only if it contains the substring "---"
(`if *i < lines.len() && lines[*i].contains("---") { *i += 1 }`). -/
def tableSepSkip : List (List Char) → List (List Char)
  | [] => []
  | s :: t2 => if isSubstr "---".data s then t2 else s :: t2

/-- The data-row loop of `parse_table`: consumes contiguous lines
matching `tableBodyPred` and returns their html plus the leftover. -/
def tableBody (fuel : Nat) : List (List Char) → Option (List Char × List (List Char))
  | [] => some ([], [])
  | l :: t =>
    if tableBodyPred l then
      (rowCellsHtml fuel "<td>".data "</td>".data (parse_table_row l)).bind (fun ch =>
        (tableBody fuel t).map (fun p => ("<tr>".data ++ ch ++ "</tr>".data ++ p.1, p.2)))
    else
      some ([], l :: t)

/-- `parse_table` from rich_content.rs, on the suffix of lines starting
at the current index; returns the table html and the remaining lines. -/
def parse_table (fuel : Nat) (ls : List (List Char)) :
    Option (List Char × List (List Char)) :=
  (match ls with
    | [] => some (([] : List Char), ([] : List (List Char)))
    | h :: t =>
      (rowCellsHtml fuel "<th>".data "</th>".data (parse_table_row h)).map
        (fun cellsHtml => ("<thead><tr>".data ++ cellsHtml ++ "</tr></thead>".data, t))
  ).bind (fun (hp : List Char × List (List Char)) =>
    let ls2 := tableSepSkip hp.2
    (tableBody fuel ls2).map (fun (bp : List Char × List (List Char)) =>
      ("<div class=\"table-wrapper\"><table>".data ++ hp.1 ++ "<tbody>".data ++ bp.1 ++
        "</tbody></table></div>".data, bp.2)))

/-- The paragraph-collector break predicate: the disjunction tested at
the top of the paragraph accumulation loop. -/
def paraBreak (l : List Char) : Bool :=
  (trim l).isEmpty ||
  "#".data.isPrefixOf (trimStart l) ||
  "```".data.isPrefixOf (trimStart l) ||
  "> ".data.isPrefixOf (trimStart l) ||
  "- ".data.isPrefixOf (trimStart l) ||
  "* ".data.isPrefixOf (trimStart l) ||
  "+ ".data.isPrefixOf (trimStart l) ||
  "$$".data.isPrefixOf (trim l) ||
  "\\[".data.isPrefixOf (trim l) ||
  is_task_list_item l ||
  (l.contains '|' && "|".data.isPrefixOf (trim l) && "|".data.isSuffixOf (trim l)) ||
  trim l == "---".data || trim l == "***".data || trim l == "___".data ||
  (parse_ordered_list_item l).isSome

/-- The paragraph joiner: trailing backslash or double space becomes a
hard break, otherwise lines are joined with a single space. -/
def paraJoin (acc l : List Char) : List Char :=
  if acc.isEmpty then l
  else if acc.getLast? = some '\\' then acc.dropLast ++ "<br>".data ++ l
  else if "  ".data.isSuffixOf acc then trimEnd acc ++ "<br>".data ++ l
  else acc ++ ' ' :: l

/-- The `</{list_type}>` closer. -/
def closeTag (lt : List Char) : List Char := "</".data ++ lt ++ ">".data

/-- The copy-button tail shared by both code-block headers. -/
def codeCopyBtn : List Char :=
  "<button class=\"code-copy-btn\" onclick=\"navigator.clipboard.writeText(this.parentElement.nextElementSibling.textContent)\">Copy</button></div>".data

/-- The code-block header when the language tag is empty. -/
def codeHeaderPlain : List Char :=
  "<div class=\"code-block-header\"><span class=\"code-lang\">code</span>".data ++ codeCopyBtn

/-- The code-block header with an escaped language label. -/
def codeHeaderFor (escLang : List Char) : List Char :=
  "<div class=\"code-block-header\"><span class=\"code-lang\">".data ++ escLang ++
    "</span>".data ++ codeCopyBtn

/-- The display-math block element, carrying the LaTeX source twice. -/
def katexBlock (latex : List Char) : List Char :=
  "<div class=\"katex-block\" data-latex=\"".data ++ escape_html_attr latex ++ "\">".data ++
    escape_html latex ++ "</div>".data

/-- The outer line-dispatch loop of `render_markdown_to_html`.  The
remaining lines replace the index `i`; `in_list` and `lt` are the
`in_list` / `list_type` loop state.  Fuel is consumed once per outer
iteration (and per inline step inside `goInline`); a `none` result is
fuel exhaustion.  The paragraph fallback can consume zero lines, which
is precisely the source's non-termination bug. -/
def goBlocks : Nat → List (List Char) → Bool → List Char → Option (List Char)
  | 0, _, _, _ => none
  | Nat.succ fuel, ls, in_list, lt =>
    match ls with
    | [] => some (if in_list then closeTag lt else [])
    | line :: rest =>
      -- fenced code blocks
      if "```".data.isPrefixOf (trimStart line) then
        let pre := if in_list then closeTag lt else []
        let lang := trim ((trimStart line).dropWhile (fun c => c = backtickChar))
        let lang_attr :=
          if lang.isEmpty then ([] : List Char)
          else " class=\"language-".data ++ lang ++ "\"".data
        let lang_label := if lang.isEmpty then codeHeaderPlain else codeHeaderFor (escape_html lang)
        let bodyRest := rest.span (fun l2 => !("```".data.isPrefixOf (trimStart l2)))
        let codeBody := joinNl (bodyRest.1.map escape_html)
        (fun r => pre ++ "<div class=\"code-block\">".data ++ lang_label ++
            "<pre><code".data ++ lang_attr ++ ">".data ++ codeBody ++
            "</code></pre></div>".data ++ r) <$>
          goBlocks fuel (bodyRest.2.drop 1) false lt
      -- LaTeX display block ($$...$$)
      else if "$$".data.isPrefixOf (trim line) then
        let pre := if in_list then closeTag lt else []
        if trim line = "$$".data then
          let bodyRest := rest.span (fun l2 => !(trim l2 == "$$".data))
          (fun r => pre ++ katexBlock (joinLatex bodyRest.1) ++ r) <$>
            goBlocks fuel (bodyRest.2.drop 1) false lt
        else
          let content := trimEndMatchesStr "$$".data (trimStartMatchesStr "$$".data (trim line))
          (fun r => pre ++ katexBlock content ++ r) <$> goBlocks fuel rest false lt
      -- LaTeX display block (\[...\])
      else if "\\[".data.isPrefixOf (trim line) then
        let pre := if in_list then closeTag lt else []
        if trim line = "\\[".data then
          let bodyRest := rest.span (fun l2 => !(trim l2 == "\\]".data))
          (fun r => pre ++ katexBlock (joinLatex bodyRest.1) ++ r) <$>
            goBlocks fuel (bodyRest.2.drop 1) false lt
        else
          let trimmed := trim line
          let a := (stripPre "\\[".data trimmed).getD trimmed
          let b := (stripSuf "\\]".data a).getD trimmed
          (fun r => pre ++ katexBlock (trim b) ++ r) <$> goBlocks fuel rest false lt
      -- table detection
      else if line.contains '|' && "|".data.isPrefixOf (trim line) &&
          "|".data.isSuffixOf (trim line) then
        let pre := if in_list then closeTag lt else []
        (parse_table fuel (line :: rest)).bind (fun tp =>
          (fun r => pre ++ tp.1 ++ r) <$> goBlocks fuel tp.2 false lt)
      else
        -- close list if current line is not a list item and not empty
        let midClose := in_list && !(is_list_item line) && !(trim line).isEmpty
        let pre0 := if midClose then closeTag lt else []
        let il1 := if midClose then false else in_list
        -- horizontal rule
        if trim line = "---".data ∨ trim line = "***".data ∨ trim line = "___".data then
          let pre := if il1 then closeTag lt else []
          (fun r => pre0 ++ pre ++ "<hr>".data ++ r) <$> goBlocks fuel rest false lt
        else
          -- headers
          match parse_header fuel line with
          | none => none
          | some (some h) =>
            let pre := if il1 then closeTag lt else []
            (fun r => pre0 ++ pre ++ h ++ r) <$> goBlocks fuel rest false lt
          | some none =>
            -- blockquote
            if "> ".data.isPrefixOf (trimStart line) ∨ trimStart line = ">".data then
              let pre := if il1 then closeTag lt else []
              let qsRest := (line :: rest).span
                (fun l => "> ".data.isPrefixOf (trimStart l) || trimStart l == ">".data)
              ((mapOpt (fun l =>
                  let content := ((stripPre "> ".data (trimStart l)).orElse
                    (fun _ => stripPre ">".data (trimStart l))).getD []
                  (process_inline fuel content).map
                    (fun ih => "<p>".data ++ ih ++ "</p>".data)) qsRest.1).bind (fun ps =>
                (fun r => pre0 ++ pre ++ "<blockquote>".data ++ catLists ps ++
                    "</blockquote>".data ++ r) <$>
                  goBlocks fuel qsRest.2 false lt))
            -- task list items
            else if is_task_list_item line then
              let pre1 :=
                if !il1 || !(lt == "ul".data) then
                  (if il1 then closeTag lt else []) ++ "<ul class=\"task-list\">".data
                else []
              let tc := parse_task_item (trimStart line)
              let itemOpen :=
                if tc.1 then
                  "<li class=\"task-list-item task-list-item--checked\"><span class=\"task-checkbox task-checkbox--checked\">&#9745;</span> ".data
                else
                  "<li class=\"task-list-item\"><span class=\"task-checkbox\">&#9744;</span> ".data
              ((process_inline fuel tc.2).bind (fun ih =>
                (fun r => pre0 ++ pre1 ++ itemOpen ++ ih ++ "</li>".data ++ r) <$>
                  goBlocks fuel rest true "ul".data))
            -- unordered list items
            else if "- ".data.isPrefixOf (trimStart line) ∨ "* ".data.isPrefixOf (trimStart line) ∨
                "+ ".data.isPrefixOf (trimStart line) then
              let pre1 :=
                if !il1 || !(lt == "ul".data) then
                  (if il1 then closeTag lt else []) ++ "<ul>".data
                else []
              ((process_inline fuel ((trimStart line).drop 2)).bind (fun ih =>
                (fun r => pre0 ++ pre1 ++ "<li>".data ++ ih ++ "</li>".data ++ r) <$>
                  goBlocks fuel rest true "ul".data))
            else
              -- ordered list items
              match parse_ordered_list_item line with
              | some content =>
                let pre1 :=
                  if !il1 || !(lt == "ol".data) then
                    (if il1 then closeTag lt else []) ++ "<ol>".data
                  else []
                ((process_inline fuel content).bind (fun ih =>
                  (fun r => pre0 ++ pre1 ++ "<li>".data ++ ih ++ "</li>".data ++ r) <$>
                    goBlocks fuel rest true "ol".data))
              | none =>
                -- empty line
                if (trim line).isEmpty then
                  let pre := if il1 then closeTag lt else []
                  (fun r => pre0 ++ pre ++ r) <$> goBlocks fuel rest false lt
                -- HTML passthrough
                else if "<".data.isPrefixOf (trimStart line) &&
                    (isSubstr "<table".data line || isSubstr "<div".data line ||
                     isSubstr "<img".data line || isSubstr "<br".data line ||
                     isSubstr "<hr".data line) then
                  (fun r => pre0 ++ line ++ r) <$> goBlocks fuel rest il1 lt
                -- normal paragraph (collects consecutive lines)
                else
                  let pr := (line :: rest).span (fun l => !(paraBreak l))
                  let para := pr.1.foldl paraJoin []
                  if para.isEmpty then
                    (fun r => pre0 ++ r) <$> goBlocks fuel pr.2 il1 lt
                  else
                    ((process_inline fuel para).bind (fun ih =>
                      (fun r => pre0 ++ "<p>".data ++ ih ++ "</p>".data ++ r) <$>
                        goBlocks fuel pr.2 il1 lt))

/-- Strip a single trailing carriage return (the `\r\n` case of
Rust `str::lines`). -/
def stripCr (l : List Char) : List Char :=
  match l.getLast? with
  | some c => if c = '\r' then l.dropLast else l
  | none => l

/-- Rust `str::lines`: split on `\n`; every piece that was followed by a
`\n` loses one trailing `\r`; a trailing empty piece (input ending in
`\n`) is dropped. -/
def rustLines (s : List Char) : List (List Char) :=
  if s.isEmpty then []
  else
    let parts := splitOnChar '\n' s
    (parts.dropLast.map stripCr) ++
      (match parts.getLast? with
        | some [] => []
        | some l => [l]
        | none => [])

/-- `render_markdown_to_html` from rich_content.rs (fuel-indexed). -/
def render_markdown_to_html (fuel : Nat) (input : List Char) : Option (List Char) :=
  goBlocks fuel (rustLines input) false []

/-- The wrapper class chosen by the `RichContent` component. -/
def richContentClass (streaming : Option Bool) : List Char :=
  if streaming.getD false then "rich-content rich-content--streaming".data
  else "rich-content".data

/-- The `RichContent` component: the wrapper class and the inner html
(`dangerous_inner_html`), as a pair. -/
def richContent (fuel : Nat) (text : List Char) (streaming : Option Bool) :
    Option (List Char × List Char) :=
  (render_markdown_to_html fuel text).map (fun h => (richContentClass streaming, h))

/-- Modelled from the spec: the "next unescaped" delimiter search that
claim C9 attributes to the link parser — the next occurrence of the
delimiter that is not immediately preceded by a backslash.  (No such
function exists in the source; `find_closing` ignores escaping.) -/
def find_unescaped (cs : List Char) (start : Nat) (d : Char) : Option Nat :=
  (List.range cs.length).find? (fun j =>
    decide (start ≤ j) && (cs.getD j ' ' == d) &&
    !(decide (1 ≤ j) && (cs.getD (j - 1) ' ' == '\\')))

/-- Modelled from the spec: the link matcher exactly as claim C9 words
it — a literal bracket, then the next UNESCAPED closing bracket, then a
parenthesis immediately following, then the next UNESCAPED closing
parenthesis. -/
def parse_link_claim (cs : List Char) (start : Nat) :
    Option (List Char × List Char × Nat) :=
  if cs.getD start ' ' ≠ '[' then none
  else
    match find_unescaped cs (start + 1) ']' with
    | none => none
    | some cb =>
      if cb + 1 ≥ cs.length then none
      else if cs.getD (cb + 1) ' ' ≠ '(' then none
      else
        match find_unescaped cs (cb + 2) ')' with
        | none => none
        | some cp => some (sliceCs cs (start + 1) cb, sliceCs cs (cb + 2) cp, cp + 1)

/-- C1: refuted as stated — the renderer does NOT terminate on every
input.  On the input "#x" (a line whose trimmed-left content starts with
a '#' but is not a valid header) `parse_header` fails, the line falls
through to paragraph handling, the paragraph accumulator immediately
breaks on the leading '#' having consumed zero lines, and the outer loop
re-dispatches the very same line forever.  Formally: no amount of fuel
makes the dispatch loop finish on this input. -/
theorem c1_header_fallthrough_diverges (fuel : Nat) :
    render_markdown_to_html fuel "#x".data = none := by
  show goBlocks fuel (rustLines "#x".data) false [] = none
  rw [show rustLines "#x".data = [['#', 'x']] from by decide]
  induction fuel with
  | zero => rfl
  | succ n ih =>
    have step : goBlocks (n + 1) [['#', 'x']] false [] = goBlocks n [['#', 'x']] false [] := by
      conv_lhs => simp only [goBlocks]
      simp +decide [show parse_header n ['#', 'x'] = some none from rfl,
        show parse_ordered_list_item ['#', 'x'] = none from rfl]
    rw [step]
    exact ih

/-- C2: refuted as stated — the fenced-code language tag is interpolated
into the `class="language-{lang}"` attribute WITHOUT escaping (while the
adjacent label is escaped), so a fence line carrying markup in its
language position reaches the output raw.  Rendering
the single line three-backticks followed by "><script>alert(1)</script>
yields output containing the un-escaped substring
<script>alert(1)</script>. -/
theorem c2_lang_attr_unescaped :
    ((render_markdown_to_html 2 "```\"><script>alert(1)</script>".data).map
      (fun out => isSubstr "<script>alert(1)</script>".data out)).getD false = true := by
  decide

/-- C3: refuted as stated — streaming-prefix safety fails for the same
reason as C2: a prefix of a document can be (and here is) a fence line
with un-escaped markup in its language position, and `render(p, true)`
emits it raw.  The prefix relationship to a longer document is recorded
in the first conjunct; the second shows the streaming render of the
prefix contains raw script markup. -/
theorem c3_prefix_unescaped :
    "```\"><script>alert(2)</script>".data.isPrefixOf
      ("```\"><script>alert(2)</script>".data ++ "\ncode\n```".data) = true ∧
    ((richContent 2 "```\"><script>alert(2)</script>".data (some true)).map
      (fun pr => isSubstr "<script>alert(2)</script>".data pr.2)).getD false = true := by
  exact ⟨by decide, by decide⟩

/-- C4: confirmed — when a line reaches the raw-HTML passthrough rule
(its trimmed-left content starts with a literal less-than sign, it
contains one of the five allow-listed tag fragments, and every earlier
block rule failed on it), the entire original line is appended to the
output verbatim, with no escaping, followed by the rendering of the
remaining lines.  In particular arbitrary same-line content (such as a
script element sharing the line with a br tag) reaches the output
un-escaped. -/
theorem c4_passthrough_verbatim (fuel : Nat) (line : List Char) (rest : List (List Char))
    (lt : List Char)
    (h1 : "```".data.isPrefixOf (trimStart line) = false)
    (h2 : "$$".data.isPrefixOf (trim line) = false)
    (h3 : "\\[".data.isPrefixOf (trim line) = false)
    (h4 : (line.contains '|' && "|".data.isPrefixOf (trim line) &&
      "|".data.isSuffixOf (trim line)) = false)
    (h5a : trim line ≠ "---".data) (h5b : trim line ≠ "***".data) (h5c : trim line ≠ "___".data)
    (h6 : is_header_line line = none)
    (h7a : "> ".data.isPrefixOf (trimStart line) = false)
    (h7b : trimStart line ≠ ">".data)
    (h8 : is_task_list_item line = false)
    (h9a : "- ".data.isPrefixOf (trimStart line) = false)
    (h9b : "* ".data.isPrefixOf (trimStart line) = false)
    (h9c : "+ ".data.isPrefixOf (trimStart line) = false)
    (h10 : parse_ordered_list_item line = none)
    (h11 : (trim line).isEmpty = false)
    (h12 : ("<".data.isPrefixOf (trimStart line) &&
      (isSubstr "<table".data line || isSubstr "<div".data line ||
       isSubstr "<img".data line || isSubstr "<br".data line ||
       isSubstr "<hr".data line)) = true) :
    goBlocks (fuel + 1) (line :: rest) false lt =
      (fun r => line ++ r) <$> goBlocks fuel rest false lt := by
  have hph : parse_header fuel line = some none := by
    simp [parse_header, h6]
  conv_lhs => simp only [goBlocks]
  rw [h1, h2, h3, h4, hph, h8, h11, h12]
  simp [h5a, h5b, h5c, h7a, h7b, h9a, h9b, h9c, h10]

/-- Witness for C4: a concrete line carrying a br tag and a script
element is emitted verbatim. -/
theorem c4_passthrough_verbatim_witness :
    goBlocks 2 ["<br><script>alert(3)</script>".data] false [] =
      (fun r => "<br><script>alert(3)</script>".data ++ r) <$> goBlocks 1 [] false [] :=
  c4_passthrough_verbatim 1 "<br><script>alert(3)</script>".data [] []
    (by decide) (by decide) (by decide) (by decide) (by decide) (by decide) (by decide)
    (by decide) (by decide) (by decide) (by decide) (by decide) (by decide) (by decide)
    (by decide) (by decide) (by decide)

/-- C5: confirmed — the streaming flag does not change parsing
semantics: the html component of the `RichContent` pair is identical for
any two values of the flag (it is computed by `render_markdown_to_html`
from the text alone), and the flag only selects the wrapper class. -/
theorem c5_streaming_flag_semantics (fuel : Nat) (text : List Char) (s1 s2 : Option Bool) :
    (richContent fuel text s1).map Prod.snd = (richContent fuel text s2).map Prod.snd ∧
    richContentClass (some true) = "rich-content rich-content--streaming".data ∧
    richContentClass (some false) = "rich-content".data ∧
    richContentClass none = "rich-content".data := by
  refine ⟨?_, rfl, rfl, rfl⟩
  cases h : render_markdown_to_html fuel text <;> simp [richContent, h]

/-- C6 counterexample: on the input
"|" newline "| b |" newline "| c": the first line is a single pipe,
which the claim (needing one more '|' beyond the bounding pair) would
not recognize as a table header, yet the code renders it as a header
row with one empty cell; the line after the header does NOT contain
"---" and is therefore not skipped as a separator (the claim says any
line is accepted as the separator and always skipped) — it is rendered
as a body row with cell b; and the third line, which does not end with
a pipe (so does not match the claimed "same pipe-bounded shape"), is
still consumed as a body row with cell c. -/
theorem c6_separator_counterexample :
    render_markdown_to_html 8 "|\n| b |\n| c".data =
      some ("<div class=\"table-wrapper\"><table><thead><tr><th></th></tr></thead><tbody><tr><td>b</td></tr><tr><td>c</td></tr></tbody></table></div>".data) ∧
    isSubstr "<td>b</td>".data
      ((render_markdown_to_html 8 "|\n| b |\n| c".data).getD []) = true := by
  exact ⟨by decide, by decide⟩

/-- C7 counterexample: the single line "$$x" has no closing "$$" on the
line, yet the code opens a single-line display-math block for it (the
claim requires a closing "$$" on the same line for the single-line
form). -/
theorem c7_opener_counterexample :
    render_markdown_to_html 4 "$$x".data =
      some ("<div class=\"katex-block\" data-latex=\"x\">x</div>".data) := by
  decide

/-- C8 counterexample: the line "# " (hash, space, empty remainder) is
rendered as an empty h1 heading, although the claim requires a
non-empty remainder for a heading to be produced. -/
theorem c8_empty_heading_counterexample :
    render_markdown_to_html 4 "# ".data = some "<h1></h1>".data := by
  decide

/-- C9 counterexample: on the input "[a\]b](u)" the claimed algorithm
(skip escaped brackets) produces a link with text "a\]b" and url "u",
but the source's `parse_link_or_image` uses a plain nearest-bracket
scan, lands on the escaped bracket, fails the parenthesis check and
matches nothing at all. -/
theorem c9_unescaped_counterexample :
    parse_link_or_image "[a\\]b](u)".data 0 = none ∧
    parse_link_claim "[a\\]b](u)".data 0 = some ("a\\]b".data, "u".data, 9) := by
  exact ⟨by decide, by decide⟩

/-- C7 amended: a display math block opens on any line whose trimmed
content starts with "$$" (no same-line closer is required), or on any
line whose trimmed content starts with "\[".  If the trimmed line is
exactly "$$" (resp. "\["), the multi-line form collects following lines
until one trimmed-equal to "$$" (resp. "\]") or end of input and skips
the closer.  Otherwise the single-line form is used: for "$$" it strips
all leading and trailing "$$" repetitions from the trimmed line; for
"\[" it strips one "\[" prefix and one "\]" suffix and trims the
result, except that when the "\]" suffix is absent the whole trimmed
line, opening "\[" included, is kept.  (Stated for a line on which the
earlier fenced-code rule does not fire and with no list open; the "\["
cases additionally require that the "$$" rule did not fire first, as in
the dispatch order.) -/
theorem c7_display_math_amended (fuel : Nat) (line : List Char) (rest : List (List Char))
    (lt : List Char)
    (h1 : "```".data.isPrefixOf (trimStart line) = false) :
    ("$$".data.isPrefixOf (trim line) = true → trim line = "$$".data →
      goBlocks (fuel + 1) (line :: rest) false lt =
        (fun r => katexBlock (joinLatex (rest.takeWhile (fun l2 => !(trim l2 == "$$".data)))) ++ r)
          <$> goBlocks fuel ((rest.dropWhile (fun l2 => !(trim l2 == "$$".data))).drop 1) false lt)
    ∧ ("$$".data.isPrefixOf (trim line) = true → trim line ≠ "$$".data →
      goBlocks (fuel + 1) (line :: rest) false lt =
        (fun r => katexBlock
            (trimEndMatchesStr "$$".data (trimStartMatchesStr "$$".data (trim line))) ++ r)
          <$> goBlocks fuel rest false lt)
    ∧ ("$$".data.isPrefixOf (trim line) = false →
        "\\[".data.isPrefixOf (trim line) = true → trim line = "\\[".data →
      goBlocks (fuel + 1) (line :: rest) false lt =
        (fun r => katexBlock (joinLatex (rest.takeWhile (fun l2 => !(trim l2 == "\\]".data)))) ++ r)
          <$> goBlocks fuel ((rest.dropWhile (fun l2 => !(trim l2 == "\\]".data))).drop 1) false lt)
    ∧ ("$$".data.isPrefixOf (trim line) = false →
        "\\[".data.isPrefixOf (trim line) = true → trim line ≠ "\\[".data →
      goBlocks (fuel + 1) (line :: rest) false lt =
        (fun r => katexBlock
            (trim ((stripSuf "\\]".data
              ((stripPre "\\[".data (trim line)).getD (trim line))).getD (trim line))) ++ r)
          <$> goBlocks fuel rest false lt) := by
  refine ⟨?_, ?_, ?_, ?_⟩
  · intro h2 h
    conv_lhs => simp only [goBlocks]
    rw [h1, h2]
    simp [h, List.span_eq_take_drop]
  · intro h2 h
    conv_lhs => simp only [goBlocks]
    rw [h1, h2]
    simp [h]
  · intro h2 h3 h
    conv_lhs => simp only [goBlocks]
    rw [h1, h2, h3]
    simp [h, List.span_eq_take_drop]
  · intro h2 h3 h
    conv_lhs => simp only [goBlocks]
    rw [h1, h2, h3]
    simp [h]

/-- Witness for the C7 amended theorem: the single-line "$$" form at
the line "$$x" and the single-line "\[" form at the line "\[x\]". -/
theorem c7_display_math_amended_witness :
    (goBlocks 2 ["$$x".data] false [] =
      (fun r => katexBlock
          (trimEndMatchesStr "$$".data (trimStartMatchesStr "$$".data (trim "$$x".data))) ++ r)
        <$> goBlocks 1 [] false []) ∧
    (goBlocks 2 ["\\[x\\]".data] false [] =
      (fun r => katexBlock
          (trim ((stripSuf "\\]".data
            ((stripPre "\\[".data (trim "\\[x\\]".data)).getD
              (trim "\\[x\\]".data))).getD (trim "\\[x\\]".data))) ++ r)
        <$> goBlocks 1 [] false []) :=
  ⟨(c7_display_math_amended 1 "$$x".data [] [] (by decide)).2.1 (by decide) (by decide),
   (c7_display_math_amended 1 "\\[x\\]".data [] [] (by decide)).2.2.2 (by decide) (by decide)
     (by decide)⟩

theorem takeWhile_hash_replicate (n : Nat) (rest : List Char) :
    (List.replicate n '#' ++ ' ' :: rest).takeWhile (fun c => c = '#') =
      List.replicate n '#' := by
  induction n with
  | zero => simp [List.takeWhile_cons]
  | succ m ih => simp [List.replicate_succ, List.takeWhile_cons, ih]

theorem getD_replicate_append (n : Nat) (b : Char) (rest : List Char) :
    (List.replicate n '#' ++ b :: rest).getD n ' ' = b := by
  induction n with
  | zero => rfl
  | succ m ih => simpa [List.replicate_succ] using ih

theorem drop_replicate_append (n : Nat) (b : Char) (rest : List Char) :
    (List.replicate n '#' ++ b :: rest).drop (n + 1) = rest := by
  induction n with
  | zero => rfl
  | succ m ih => simpa [List.replicate_succ] using ih

theorem takeWhile_hash_self (t : List Char) :
    t.takeWhile (fun c => c = '#') =
      List.replicate (t.takeWhile (fun c => c = '#')).length '#' := by
  induction t with
  | nil => rfl
  | cons a l ih =>
    by_cases h : a = '#'
    · simp [List.takeWhile_cons, h, List.replicate_succ]
      exact ih
    · simp [List.takeWhile_cons, h]

theorem dropWhile_eq_drop_len (t : List Char) (p : Char → Bool) :
    t.dropWhile p = t.drop (t.takeWhile p).length := by
  induction t with
  | nil => rfl
  | cons a l ih =>
    by_cases h : p a = true
    · simpa [List.takeWhile_cons, List.dropWhile_cons, h] using ih
    · simp [List.takeWhile_cons, List.dropWhile_cons, h]

theorem drop_eq_getD_cons {t : List Char} {n : Nat} (h : n < t.length) :
    t.drop n = t.getD n ' ' :: t.drop (n + 1) := by
  rw [List.getD_eq_getElem t ' ' h]
  exact List.drop_eq_getElem_cons h

/-- C8 amended: a heading is produced exactly for lines whose
trimmed-left content is 1-6 '#' characters followed by a literal space;
the remainder after that space MAY be empty, and is inline-processed and
wrapped in hN.  Any line admitting no such decomposition with a level in
1..6 (more than 6 leading '#', or no space after the run) is not a
heading. -/
theorem c8_header_amended (l : List Char) (fuel : Nat) :
    (∀ lvl rest, 1 ≤ lvl → lvl ≤ 6 →
      trimStart l = List.replicate lvl '#' ++ ' ' :: rest →
      parse_header fuel l = (process_inline fuel rest).map (fun ih =>
        some ("<h".data ++ (Nat.repr lvl).data ++ ">".data ++ ih ++
          "</h".data ++ (Nat.repr lvl).data ++ ">".data)))
    ∧ ((∀ lvl rest, trimStart l = List.replicate lvl '#' ++ ' ' :: rest →
        ¬(1 ≤ lvl ∧ lvl ≤ 6)) →
      parse_header fuel l = some none) := by
  constructor
  · intro lvl rest h1 h6 ht
    have hcond : 1 ≤ lvl ∧ lvl ≤ 6 ∧
        lvl < (List.replicate lvl '#' ++ ' ' :: rest).length ∧
        (List.replicate lvl '#' ++ ' ' :: rest).getD lvl ' ' = ' ' := by
      refine ⟨h1, h6, ?_, getD_replicate_append lvl ' ' rest⟩
      simp [List.length_append, List.length_replicate]
    have hihl : is_header_line l = some (lvl, rest) := by
      simp only [is_header_line]
      rw [ht, takeWhile_hash_replicate, List.length_replicate, if_pos hcond,
        drop_replicate_append]
    simp [parse_header, hihl]
  · intro hno
    have hnone : is_header_line l = none := by
      by_contra hsome
      rcases Option.ne_none_iff_exists'.mp hsome with ⟨⟨lvl, c⟩, hsc⟩
      simp only [is_header_line] at hsc
      split at hsc
      case isTrue hcond =>
        have hlt : (List.takeWhile (fun c => c = '#') (trimStart l)).length <
            (trimStart l).length := hcond.2.2.1
        have hdecomp : trimStart l =
            List.replicate (List.takeWhile (fun c => c = '#') (trimStart l)).length '#' ++
              ' ' :: (trimStart l).drop
                ((List.takeWhile (fun c => c = '#') (trimStart l)).length + 1) := by
          conv_lhs => rw [(List.takeWhile_append_dropWhile
            (p := fun c => c = '#') (l := trimStart l)).symm]
          rw [dropWhile_eq_drop_len, drop_eq_getD_cons hlt, hcond.2.2.2]
          rw [takeWhile_hash_self (trimStart l)]
          simp [List.length_replicate]
        exact absurd ⟨hcond.1, hcond.2.1⟩ (hno _ _ hdecomp)
      case isFalse => exact absurd hsc.symm (Option.some_ne_none _)
    simp [parse_header, hnone]

/-- Witness for the C8 amended theorem at the line "## hi" (positive
direction) and "#x" (negative direction: no space after the hash run,
so no decomposition exists at all). -/
theorem c8_header_amended_witness :
    parse_header 3 "## hi".data = some (some "<h2>hi</h2>".data) ∧
    parse_header 3 "#x".data = some none := by
  constructor
  · exact ((c8_header_amended "## hi".data 3).1 2 "hi".data (by decide) (by decide)
      (by decide)).trans (by decide)
  · refine (c8_header_amended "#x".data 3).2 ?_
    intro lvl rest h
    rw [show trimStart "#x".data = ['#', 'x'] from by decide] at h
    have hlen : 2 = lvl + (rest.length + 1) := by
      simpa [List.length_append] using congrArg List.length h
    have hb : lvl ≤ 1 := by omega
    interval_cases lvl <;> simp_all

theorem foldl_append_acc (l : List (List Char)) :
    ∀ a : List Char, l.foldl (fun x y => x ++ y) a = a ++ catLists l := by
  induction l with
  | nil => intro a; simp [catLists]
  | cons h t ih =>
    intro a
    have hc : catLists (h :: t) = h ++ catLists t := by
      show List.foldl (fun x y => x ++ y) ([] ++ h) t = h ++ catLists t
      rw [List.nil_append, ih h]
    rw [hc]
    show List.foldl (fun x y => x ++ y) (a ++ h) t = a ++ (h ++ catLists t)
    rw [ih (a ++ h), List.append_assoc]

theorem catLists_cons (a : List Char) (t : List (List Char)) :
    catLists (a :: t) = a ++ catLists t := by
  show List.foldl (fun x y => x ++ y) ([] ++ a) t = a ++ catLists t
  rw [List.nil_append, foldl_append_acc t a]

/-- The data-row loop of `parse_table` consumes exactly the maximal
prefix of lines satisfying `tableBodyPred` and renders one `tr` per
consumed line. -/
theorem tableBody_eq (fuel : Nat) (t : List (List Char)) :
    tableBody fuel t =
      (mapOpt (fun l =>
        (rowCellsHtml fuel "<td>".data "</td>".data (parse_table_row l)).map
          (fun ch => "<tr>".data ++ ch ++ "</tr>".data)) (t.takeWhile tableBodyPred)).map
        (fun rows => (catLists rows, t.dropWhile tableBodyPred)) := by
  induction t with
  | nil => simp [tableBody, mapOpt, catLists]
  | cons l t ih =>
    by_cases h : tableBodyPred l = true
    · cases hrc : rowCellsHtml fuel "<td>".data "</td>".data (parse_table_row l) with
      | none => simp [tableBody, h, List.takeWhile_cons, mapOpt, hrc]
      | some ch =>
        simp only [tableBody, List.takeWhile_cons, List.dropWhile_cons, h, if_true, hrc, ih,
          mapOpt, Option.map_some', Option.some_bind, Option.map_map, Bool.not_true, ite_true]
        congr 1
        funext rows
        simp [Function.comp, catLists_cons, List.append_assoc]
    · simp [tableBody, h, List.takeWhile_cons, List.dropWhile_cons, mapOpt, catLists]

/-- C6 amended: for a recognized table, the header row is rendered from
the first line; the immediately following line is skipped as the
separator only if it contains the substring "---" (otherwise it is kept
and processed like any other candidate row); and the body consists of
exactly the maximal run of following lines that contain a '|' and whose
trimmed content starts with '|' (a trailing pipe is not required),
one tr per line. -/
theorem c6_table_amended (fuel : Nat) (hdr : List Char) (rest : List (List Char)) :
    parse_table fuel (hdr :: rest) =
      (rowCellsHtml fuel "<th>".data "</th>".data (parse_table_row hdr)).bind (fun hh =>
        (mapOpt (fun l =>
            (rowCellsHtml fuel "<td>".data "</td>".data (parse_table_row l)).map
              (fun ch => "<tr>".data ++ ch ++ "</tr>".data))
            ((tableSepSkip rest).takeWhile tableBodyPred)).map (fun rows =>
          ("<div class=\"table-wrapper\"><table>".data ++
            ("<thead><tr>".data ++ hh ++ "</tr></thead>".data) ++ "<tbody>".data ++
            catLists rows ++ "</tbody></table></div>".data,
            (tableSepSkip rest).dropWhile tableBodyPred))) := by
  simp only [parse_table]
  cases hh : rowCellsHtml fuel "<th>".data "</th>".data (parse_table_row hdr) with
  | none => simp
  | some h0 =>
    simp only [Option.map_some', Option.some_bind, tableBody_eq, Option.map_map]
    congr 1

theorem getD_drop_eq (cs : List Char) (start k : Nat) :
    (cs.drop start).getD k ' ' = cs.getD (start + k) ' ' := by
  rw [List.getD_eq_getD_get?, List.getD_eq_getD_get?, List.get?_eq_getElem?,
    List.get?_eq_getElem?, List.getElem?_drop]

theorem findFromAux_eq_none (d : Char) (l : List Char) (j : Nat)
    (h : ∀ k, k < l.length → l.getD k ' ' ≠ d) : findFromAux d l j = none := by
  induction l generalizing j with
  | nil => rfl
  | cons c rest ih =>
    have hc : c ≠ d := by simpa using h 0 (by simp)
    simp only [findFromAux, hc, if_false, ite_false]
    exact ih (j + 1) (fun k hk => by simpa using h (k + 1) (by simpa using hk))

theorem find_closing_eq_none (cs : List Char) (start : Nat) (d : Char)
    (h : ∀ j, j < cs.length → start ≤ j → cs.getD j ' ' ≠ d) :
    find_closing cs start d = none := by
  apply findFromAux_eq_none
  intro k hk
  rw [getD_drop_eq]
  have hlen : (cs.drop start).length = cs.length - start := List.length_drop start cs
  exact h (start + k) (by omega) (by omega)

theorem findTwoAux_eq_none (a b : Char) (l : List Char) (j : Nat)
    (h : ∀ k, k < l.length → l.getD k ' ' ≠ a) : findTwoAux a b l j = none := by
  induction l generalizing j with
  | nil => rfl
  | cons c rest ih =>
    cases rest with
    | nil => rfl
    | cons c2 r2 =>
      have hc : c ≠ a := by simpa using h 0 (by simp)
      have hstep : findTwoAux a b (c :: c2 :: r2) j = findTwoAux a b (c2 :: r2) (j + 1) := by
        simp [findTwoAux, hc]
      rw [hstep]
      exact ih (j + 1) (fun k hk => by simpa using h (k + 1) (by simpa using hk))

theorem find_double_closing_eq_none (cs : List Char) (start : Nat) (d : Char)
    (h : ∀ j, j < cs.length → start ≤ j → cs.getD j ' ' ≠ d) :
    find_double_closing cs start d = none := by
  apply findTwoAux_eq_none
  intro k hk
  rw [getD_drop_eq]
  have hlen : (cs.drop start).length = cs.length - start := List.length_drop start cs
  exact h (start + k) (by omega) (by omega)

theorem findThreeAux_eq_none (d : Char) (l : List Char) (j : Nat)
    (h : ∀ k, k < l.length → l.getD k ' ' ≠ d) : findThreeAux d l j = none := by
  induction l generalizing j with
  | nil => rfl
  | cons c rest ih =>
    cases rest with
    | nil => rfl
    | cons c2 r2 =>
      cases r2 with
      | nil => rfl
      | cons c3 r3 =>
        have hc : c ≠ d := by simpa using h 0 (by simp)
        have hstep : findThreeAux d (c :: c2 :: c3 :: r3) j =
            findThreeAux d (c2 :: c3 :: r3) (j + 1) := by
          simp [findThreeAux, hc]
        rw [hstep]
        exact ih (j + 1) (fun k hk => by simpa using h (k + 1) (by simpa using hk))

theorem find_triple_closing_eq_none (cs : List Char) (start : Nat) (d : Char)
    (h : ∀ j, j < cs.length → start ≤ j → cs.getD j ' ' ≠ d) :
    find_triple_closing cs start d = none := by
  apply findThreeAux_eq_none
  intro k hk
  rw [getD_drop_eq]
  have hlen : (cs.drop start).length = cs.length - start := List.length_drop start cs
  exact h (start + k) (by omega) (by omega)

/-- If every span-rule condition at the cursor is false, one inline step
escapes the current scalar and advances one position. -/
theorem goInline_fallthrough (fuel : Nat) (cs : List Char) (i : Nat)
    (hi : i < cs.length)
    (b1 : ¬(i + 3 < cs.length ∧ cs.getD i ' ' = '<' ∧ cs.getD (i + 1) ' ' = 'b' ∧
      cs.getD (i + 2) ' ' = 'r' ∧ cs.getD (i + 3) ' ' = '>'))
    (b2 : ¬(cs.getD i ' ' = backtickChar ∧
      (find_closing cs (i + 1) backtickChar).isSome = true))
    (b3 : ¬(cs.getD i ' ' = '\\' ∧ i + 1 < cs.length ∧ cs.getD (i + 1) ' ' = '(' ∧
      (findTwoFrom cs (i + 2) '\\' ')').isSome = true))
    (b4 : ¬(cs.getD i ' ' = '$' ∧ i + 1 < cs.length ∧ cs.getD (i + 1) ' ' ≠ '$' ∧
      optHas (fun e => decide (i + 1 < e)) (find_closing cs (i + 1) '$') = true))
    (b5 : ¬(i + 2 < cs.length ∧ cs.getD i ' ' = '*' ∧ cs.getD (i + 1) ' ' = '*' ∧
      cs.getD (i + 2) ' ' = '*' ∧ (find_triple_closing cs (i + 3) '*').isSome = true))
    (b6 : ¬(i + 1 < cs.length ∧ cs.getD i ' ' = '*' ∧ cs.getD (i + 1) ' ' = '*' ∧
      (find_double_closing cs (i + 2) '*').isSome = true))
    (b7 : ¬(i + 1 < cs.length ∧ cs.getD i ' ' = '_' ∧ cs.getD (i + 1) ' ' = '_' ∧
      (find_double_closing cs (i + 2) '_').isSome = true))
    (b8 : ¬(cs.getD i ' ' = '*' ∧ i + 1 < cs.length ∧ cs.getD (i + 1) ' ' ≠ '*' ∧
      cs.getD (i + 1) ' ' ≠ ' ' ∧
      optHas (fun e => decide (i + 1 < e)) (find_closing cs (i + 1) '*') = true))
    (b9 : ¬(cs.getD i ' ' = '_' ∧ i + 1 < cs.length ∧ cs.getD (i + 1) ' ' ≠ '_' ∧
      cs.getD (i + 1) ' ' ≠ ' ' ∧
      optHas (fun e => decide (i + 1 < e)) (find_closing cs (i + 1) '_') = true))
    (b10 : ¬(cs.getD i ' ' = '!' ∧ i + 1 < cs.length ∧ cs.getD (i + 1) ' ' = '[' ∧
      (parse_link_or_image cs (i + 1)).isSome = true))
    (b11 : ¬(cs.getD i ' ' = '[' ∧ (parse_link_or_image cs i).isSome = true))
    (b12 : ¬(i + 1 < cs.length ∧ cs.getD i ' ' = '~' ∧ cs.getD (i + 1) ' ' = '~' ∧
      (find_double_closing cs (i + 2) '~').isSome = true))
    (b13 : ¬(cs.getD i ' ' = '^' ∧ i + 1 < cs.length ∧ cs.getD (i + 1) ' ' ≠ ' ' ∧
      optHas (fun e => decide (i + 1 < e)) (find_closing cs (i + 1) '^') = true)) :
    goInline (fuel + 1) cs i =
      (fun r => escape_html_char (cs.getD i ' ') ++ r) <$> goInline fuel cs (i + 1) := by
  conv_lhs => simp only [goInline]
  rw [if_pos hi, if_neg b1, if_neg b2, if_neg b3, if_neg b4, if_neg b5, if_neg b6,
    if_neg b7, if_neg b8, if_neg b9, if_neg b10, if_neg b11, if_neg b12, if_neg b13]

/-- C10: confirmed — an inline span opener (code backtick, emphasis
marker '*' or '_', math dollar, superscript caret) whose delimiter does
not occur again anywhere in the remaining text fails every span rule:
the scanner falls through all of them, renders exactly the opening
character HTML-escaped, and advances one position; there is no retry or
backtrack. -/
theorem c10_unmatched_opener_literal (fuel : Nat) (cs : List Char) (i : Nat) (c : Char)
    (hi : i < cs.length) (hc : cs.getD i ' ' = c)
    (hmem : c = backtickChar ∨ c = '*' ∨ c = '_' ∨ c = '$' ∨ c = '^')
    (hnone : ∀ j, j < cs.length → i < j → cs.getD j ' ' ≠ c) :
    goInline (fuel + 1) cs i =
      (fun r => escape_html_char c ++ r) <$> goInline fuel cs (i + 1) := by
  have h1 : find_closing cs (i + 1) c = none :=
    find_closing_eq_none cs (i + 1) c (fun j hj hs => hnone j hj (by omega))
  have h2 : find_double_closing cs (i + 2) c = none :=
    find_double_closing_eq_none cs (i + 2) c (fun j hj hs => hnone j hj (by omega))
  have h3 : find_triple_closing cs (i + 3) c = none :=
    find_triple_closing_eq_none cs (i + 3) c (fun j hj hs => hnone j hj (by omega))
  rw [← hc]
  rcases hmem with h | h | h | h | h <;> subst h <;>
    refine goInline_fallthrough fuel cs i hi ?_ ?_ ?_ ?_ ?_ ?_ ?_ ?_ ?_ ?_ ?_ ?_ ?_ <;>
    (intro hcond; simp only [List.getD_eq_getElem?_getD] at hc;
     simp +decide [hc, h1, h2, h3, optHas] at hcond)

/-- Witness for C10: a lone '*' with no second '*' in the text is
rendered literally and the cursor advances one position. -/
theorem c10_unmatched_opener_literal_witness :
    goInline 5 "a*b".data 1 =
      (fun r => escape_html_char '*' ++ r) <$> goInline 4 "a*b".data 2 :=
  c10_unmatched_opener_literal 4 "a*b".data 1 '*' (by decide) (by decide)
    (by decide) (by decide)

/-- One inline step at a literal opening bracket with a successful
link parse emits the anchor with attribute-escaped url, recursively
processed text, and the advertised target/rel attributes. -/
theorem goInline_link_step (fuel : Nat) (cs : List Char) (i : Nat) (t u : List Char) (e : Nat)
    (hi : i < cs.length) (hget : cs.getD i ' ' = '[')
    (hp : parse_link_or_image cs i = some (t, u, e)) :
    goInline (fuel + 1) cs i =
      (goInline fuel t 0).bind (fun inner =>
        (fun r => "<a href=\"".data ++ escape_html_attr u ++
          "\" target=\"_blank\" rel=\"noopener\">".data ++ inner ++ "</a>".data ++ r) <$>
        goInline fuel cs e) := by
  have hsome : (parse_link_or_image cs i).isSome = true := by rw [hp]; rfl
  have b1 : ¬(i + 3 < cs.length ∧ cs.getD i ' ' = '<' ∧ cs.getD (i + 1) ' ' = 'b' ∧
      cs.getD (i + 2) ' ' = 'r' ∧ cs.getD (i + 3) ' ' = '>') := by
    rintro ⟨_, h', _⟩; rw [hget] at h'; exact absurd h' (by decide)
  have b2 : ¬(cs.getD i ' ' = backtickChar ∧
      (find_closing cs (i + 1) backtickChar).isSome = true) := by
    rintro ⟨h', _⟩; rw [hget] at h'; exact absurd h' (by decide)
  have b3 : ¬(cs.getD i ' ' = '\\' ∧ i + 1 < cs.length ∧ cs.getD (i + 1) ' ' = '(' ∧
      (findTwoFrom cs (i + 2) '\\' ')').isSome = true) := by
    rintro ⟨h', _⟩; rw [hget] at h'; exact absurd h' (by decide)
  have b4 : ¬(cs.getD i ' ' = '$' ∧ i + 1 < cs.length ∧ cs.getD (i + 1) ' ' ≠ '$' ∧
      optHas (fun e => decide (i + 1 < e)) (find_closing cs (i + 1) '$') = true) := by
    rintro ⟨h', _⟩; rw [hget] at h'; exact absurd h' (by decide)
  have b5 : ¬(i + 2 < cs.length ∧ cs.getD i ' ' = '*' ∧ cs.getD (i + 1) ' ' = '*' ∧
      cs.getD (i + 2) ' ' = '*' ∧ (find_triple_closing cs (i + 3) '*').isSome = true) := by
    rintro ⟨_, h', _⟩; rw [hget] at h'; exact absurd h' (by decide)
  have b6 : ¬(i + 1 < cs.length ∧ cs.getD i ' ' = '*' ∧ cs.getD (i + 1) ' ' = '*' ∧
      (find_double_closing cs (i + 2) '*').isSome = true) := by
    rintro ⟨_, h', _⟩; rw [hget] at h'; exact absurd h' (by decide)
  have b7 : ¬(i + 1 < cs.length ∧ cs.getD i ' ' = '_' ∧ cs.getD (i + 1) ' ' = '_' ∧
      (find_double_closing cs (i + 2) '_').isSome = true) := by
    rintro ⟨_, h', _⟩; rw [hget] at h'; exact absurd h' (by decide)
  have b8 : ¬(cs.getD i ' ' = '*' ∧ i + 1 < cs.length ∧ cs.getD (i + 1) ' ' ≠ '*' ∧
      cs.getD (i + 1) ' ' ≠ ' ' ∧
      optHas (fun e => decide (i + 1 < e)) (find_closing cs (i + 1) '*') = true) := by
    rintro ⟨h', _⟩; rw [hget] at h'; exact absurd h' (by decide)
  have b9 : ¬(cs.getD i ' ' = '_' ∧ i + 1 < cs.length ∧ cs.getD (i + 1) ' ' ≠ '_' ∧
      cs.getD (i + 1) ' ' ≠ ' ' ∧
      optHas (fun e => decide (i + 1 < e)) (find_closing cs (i + 1) '_') = true) := by
    rintro ⟨h', _⟩; rw [hget] at h'; exact absurd h' (by decide)
  have b10 : ¬(cs.getD i ' ' = '!' ∧ i + 1 < cs.length ∧ cs.getD (i + 1) ' ' = '[' ∧
      (parse_link_or_image cs (i + 1)).isSome = true) := by
    rintro ⟨h', _⟩; rw [hget] at h'; exact absurd h' (by decide)
  conv_lhs => simp only [goInline]
  rw [if_pos hi, if_neg b1, if_neg b2, if_neg b3, if_neg b4, if_neg b5, if_neg b6,
    if_neg b7, if_neg b8, if_neg b9, if_neg b10, if_pos ⟨hget, hsome⟩, hp]
  rfl

/-- C9 amended: the link construct matches a literal opening bracket,
then the NEXT closing bracket regardless of any backslash escaping,
then a literal opening parenthesis immediately following, then the next
closing parenthesis regardless of escaping (first conjunct: an exact
characterization of `parse_link_or_image`); on a match, the inline
scanner renders an anchor whose href is the attribute-escaped url, whose
body is the recursively inline-processed link text, with
target="_blank" rel="noopener", resuming after the closing parenthesis
(second conjunct). -/
theorem c9_link_amended (cs : List Char) (i fuel : Nat) (t u : List Char) (e : Nat) :
    (parse_link_or_image cs i = some (t, u, e) ↔
      (cs.getD i ' ' = '[' ∧ ∃ cb cp, find_closing cs (i + 1) ']' = some cb ∧
        cb + 1 < cs.length ∧ cs.getD (cb + 1) ' ' = '(' ∧
        find_closing cs (cb + 2) ')' = some cp ∧
        t = sliceCs cs (i + 1) cb ∧ u = sliceCs cs (cb + 2) cp ∧ e = cp + 1))
    ∧ (i < cs.length → cs.getD i ' ' = '[' → parse_link_or_image cs i = some (t, u, e) →
        goInline (fuel + 1) cs i =
          (goInline fuel t 0).bind (fun inner =>
            (fun r => "<a href=\"".data ++ escape_html_attr u ++
              "\" target=\"_blank\" rel=\"noopener\">".data ++ inner ++ "</a>".data ++ r) <$>
            goInline fuel cs e)) := by
  constructor
  · constructor
    · intro h
      unfold parse_link_or_image at h
      by_cases hb : cs.getD i ' ' = '['
      · rw [if_neg (not_not_intro hb)] at h
        cases hcb : find_closing cs (i + 1) ']' with
        | none => rw [hcb] at h; exact absurd h (by simp)
        | some cb =>
          rw [hcb] at h
          dsimp only at h
          by_cases hlen : cb + 1 ≥ cs.length
          · rw [if_pos hlen] at h; exact absurd h (by simp)
          · rw [if_neg hlen] at h
            by_cases hpar : cs.getD (cb + 1) ' ' ≠ '('
            · rw [if_pos hpar] at h; exact absurd h (by simp)
            · rw [if_neg hpar] at h
              cases hcp : find_closing cs (cb + 2) ')' with
              | none => rw [hcp] at h; exact absurd h (by simp)
              | some cp =>
                rw [hcp] at h
                obtain ⟨ht, hu, he⟩ : sliceCs cs (i + 1) cb = t ∧
                    sliceCs cs (cb + 2) cp = u ∧ cp + 1 = e := by simpa using h
                exact ⟨hb, cb, cp, rfl, by omega, not_not.mp hpar, hcp,
                  ht.symm, hu.symm, he.symm⟩
      · rw [if_pos hb] at h; exact absurd h (by simp)
    · rintro ⟨hb, cb, cp, hcb, hlt, hpar, hcp, ht, hu, he⟩
      subst ht; subst hu; subst he
      unfold parse_link_or_image
      rw [if_neg (not_not_intro hb), hcb]
      dsimp only
      rw [if_neg (show ¬cb + 1 ≥ cs.length by omega), if_neg (not_not_intro hpar), hcp]
  · intro hi hget hp
    exact goInline_link_step fuel cs i t u e hi hget hp

/-- Witness for C9 amended at the concrete text "[a](u)x": the
characterization identifies the closing delimiters, and one inline step
emits the anchor. -/
theorem c9_link_amended_witness :
    parse_link_or_image "[a](u)x".data 0 = some ("a".data, "u".data, 6) ∧
    goInline 5 "[a](u)x".data 0 =
      (goInline 4 "a".data 0).bind (fun inner =>
        (fun r => "<a href=\"".data ++ escape_html_attr "u".data ++
          "\" target=\"_blank\" rel=\"noopener\">".data ++ inner ++ "</a>".data ++ r) <$>
        goInline 4 "[a](u)x".data 6) := by
  constructor
  · exact (c9_link_amended "[a](u)x".data 0 4 "a".data "u".data 6).1.mpr
      ⟨by decide, 2, 5, by decide, by decide, by decide, by decide,
        by decide, by decide, by decide⟩
  · exact (c9_link_amended "[a](u)x".data 0 4 "a".data "u".data 6).2
      (by decide) (by decide) (by decide)

end Nexa
